import Mathlib

/-!
Verification of the fuzzing campaign runner in src/fuzz_runner.py.

The script is embedded shallowly.  Randomness is split into two oracles,
mirroring the two distinct sources the script draws from: the seeded
pseudo-random generator behind the Python random module (random.random,
random.randint, random.choice all consume the seeded state), and the
operating-system entropy pool behind os.urandom, which no seed governs.
The target executable is an oracle mapping an iteration index and the
delivered payload to an observed behaviour (spawn fault, hang past the
deadline, or exit with a code).  File writes are logged; process lifecycle
is logged as spawn / reap / kill events.  Harness-level exceptions are an
Except error carrying the state at the abort.
-/

namespace FuzzRunner

/-- Bytes are modelled as natural numbers (kept below 256 wherever the code
produces them). -/
abbrev Byte := Nat

/-- HARNESS constant of the script. -/
def HARNESS : String := "./zemacs-fuzz"

/-- ITERATIONS constant of the script (iteration budget of the reference
configuration). -/
def ITERATIONS : Nat := 5000

/-- CRASHES_DIR constant of the script. -/
def CRASHES_DIR : String := "crashes"

/-- The seeded pseudo-random source (the Python random module).  A fixed seed
determines every value the module will ever hand out; we abstract the
generator as streams indexed by how many draws of each primitive were made.
randoms are the results of random.random (values in the unit interval,
modelled as rationals); randints are the raw draws behind random.randint;
choiceDraws are the raw draws behind random.choice. -/
structure SeedSource where
  randoms : Nat → ℚ
  randints : Nat → Nat
  choiceDraws : Nat → Nat

/-- The operating-system entropy pool behind os.urandom.  It is a source
separate from SeedSource: no random-module seed influences it.
bytes k j is the j-th byte of the k-th urandom call. -/
structure OsEntropy where
  bytes : Nat → Nat → Nat

/-- os.urandom n : exactly n fresh bytes from the OS entropy pool; k counts
the calls made so far. -/
def OsEntropy.urandom (e : OsEntropy) (k n : Nat) : List Byte :=
  (List.range n).map (fun j => e.bytes k j % 256)

/-- generate_garbage (source lines 11-12): os.urandom of the requested
length. -/
def generate_garbage (e : OsEntropy) (k length : Nat) : List Byte :=
  OsEntropy.urandom e k length

/-- random.randint a b : uniform on the inclusive range [a, b]; the model
maps the raw seeded draw v into the interval, so the result is in range by
construction. -/
def randint (v a b : Nat) : Nat := a + v % (b - a + 1)

/-- The alphabet of generate_json_garbage (source line 16), byte values of
the characters of the Python bytes literal: braces, quotes, colon, comma,
brackets, the decimal digits and the lowercase hex letters. -/
def chars : List Byte :=
  [123, 125, 34, 39, 58, 44, 91, 93,
   48, 49, 50, 51, 52, 53, 54, 55, 56, 57,
   97, 98, 99, 100, 101, 102]

/-- generate_json_garbage (source lines 14-18): a length drawn by
random.randint 10 1000, then one random.choice over the alphabet per byte.
Returns the length together with the payload; riIdx and chIdx count the
seeded draws consumed before this call. -/
def generate_json_garbage (s : SeedSource) (riIdx chIdx : Nat) : Nat × List Byte :=
  let length := randint (s.randints riIdx) 10 1000
  (length,
   (List.range length).map
     (fun j => chars.getD (s.choiceDraws (chIdx + j) % chars.length) 0))

/-- Counters of how many draws each randomness primitive has consumed so
far: rIdx for random.random, riIdx for random.randint, chIdx for
random.choice, urIdx for os.urandom. -/
structure GenState where
  rIdx : Nat
  riIdx : Nat
  chIdx : Nat
  urIdx : Nat
deriving DecidableEq

/-- All counters start at zero. -/
def GenState.init : GenState := ⟨0, 0, 0, 0⟩

/-- One payload generation (source lines 30-36): draw rand = random.random
once; below one half take raw random bytes of length random.randint 1 1024;
otherwise below nine tenths take structured JSON-like noise; otherwise the
empty payload. -/
def genPayload (s : SeedSource) (e : OsEntropy) (g : GenState) : List Byte × GenState :=
  let rand := s.randoms g.rIdx
  if rand < 1/2 then
    (generate_garbage e g.urIdx (randint (s.randints g.riIdx) 1 1024),
     ⟨g.rIdx + 1, g.riIdx + 1, g.chIdx, g.urIdx + 1⟩)
  else if rand < 9/10 then
    ((generate_json_garbage s g.riIdx g.chIdx).2,
     ⟨g.rIdx + 1, g.riIdx + 1, g.chIdx + (generate_json_garbage s g.riIdx g.chIdx).1, g.urIdx⟩)
  else
    ([], ⟨g.rIdx + 1, g.riIdx, g.chIdx, g.urIdx⟩)

/-- What one spawned target process does, as observed by the harness:
Popen raises (executable missing or spawn failure), the process hangs past
the communicate deadline, or it terminates on its own with an exit code. -/
inductive TargetBehavior where
  | spawnFault
  | hang
  | exits (code : Int)
deriving DecidableEq

/-- Outcome of one supervised execution (data model of the campaign). -/
inductive Outcome where
  | normal (code : Int)
  | abnormalExit (code : Int)
  | timeout
deriving DecidableEq

/-- Outcome.isNormal. -/
def Outcome.isNormal : Outcome → Bool
  | .normal _ => true
  | _ => false

/-- Outcome.isAbnormal. -/
def Outcome.isAbnormal : Outcome → Bool
  | .abnormalExit _ => true
  | _ => false

/-- Outcome.isTimeout. -/
def Outcome.isTimeout : Outcome → Bool
  | .timeout => true
  | _ => false

/-- Classification done by the script (lines 44-59): TimeoutExpired gives
Timeout; a self-terminated process gives Normal on exit code zero and
AbnormalExit otherwise.  A spawn fault is not a supervised execution and
has no outcome. -/
def classify : TargetBehavior → Option Outcome
  | .spawnFault => none
  | .hang => some .timeout
  | .exits code => some (if code = 0 then .normal code else .abnormalExit code)

/-- The two failure kinds that produce artifacts. -/
inductive FailKind where
  | timeoutKind
  | crashKind
deriving DecidableEq

/-- Artifact file name (source lines 50 and 57): crashes/timeout_i.bin for a
timeout and crashes/crash_i.bin for an abnormal exit. -/
def artifactName : FailKind → Nat → String
  | .timeoutKind, i => CRASHES_DIR ++ "/timeout_" ++ Nat.repr i ++ ".bin"
  | .crashKind, i => CRASHES_DIR ++ "/crash_" ++ Nat.repr i ++ ".bin"

/-- Process lifecycle events of one supervisor call: spawn is the Popen call,
reap is a communicate call running to completion (wait plus reap), kill is
process.kill after a timeout. -/
inductive ProcEvent where
  | spawn
  | reap
  | kill
deriving DecidableEq

/-- The whole environment a campaign runs against: the two randomness
sources, the target executable, and the possible filesystem faults
(makedirs failing, or an artifact open/write failing, by file name). -/
structure World where
  seed : SeedSource
  ent : OsEntropy
  target : Nat → List Byte → TargetBehavior
  mkdirFault : Bool
  writeFault : String → Bool

/-- Harness-level faults: uncaught Python exceptions that abort the whole
campaign. -/
inductive Fault where
  | spawnFault (i : Nat)
  | mkdirFault
  | writeFault (name : String)
deriving DecidableEq

/-- Mutable state of the campaign loop: the crashes counter, the log of
completed artifact writes (name and full content, in order), the randomness
counters, the number of processes spawned, and the process event log tagged
by iteration. -/
structure RunState where
  crashes : Nat
  writes : List (String × List Byte)
  gen : GenState
  spawns : Nat
  events : List (Nat × ProcEvent)
deriving DecidableEq

/-- Initial loop state. -/
def RunState.init : RunState := ⟨0, [], GenState.init, 0, []⟩

/-- One loop iteration (source lines 28-62).  Generate the payload, spawn
the target and feed it the payload.  On TimeoutExpired: kill the process,
write the timeout artifact, bump the counter, continue.  On a normal wait:
if the exit code is nonzero, write the crash artifact and bump the counter.
A Popen fault or a failing artifact write raises, carrying the state at the
abort.  The with-open-write block of the script closes (hence flushes) the
file before the statement ends, so a completed write appears as one atomic
log entry. -/
def iterStep (W : World) (i : Nat) (st : RunState) : Except (Fault × RunState) RunState :=
  let data := (genPayload W.seed W.ent st.gen).1
  let g2 := (genPayload W.seed W.ent st.gen).2
  match W.target i data with
  | .spawnFault =>
      .error (.spawnFault i, ⟨st.crashes, st.writes, g2, st.spawns, st.events⟩)
  | .hang =>
      if W.writeFault (artifactName .timeoutKind i) then
        .error (.writeFault (artifactName .timeoutKind i),
          ⟨st.crashes, st.writes, g2, st.spawns + 1,
           st.events ++ [(i, .spawn), (i, .kill)]⟩)
      else
        .ok ⟨st.crashes + 1, st.writes ++ [(artifactName .timeoutKind i, data)], g2,
          st.spawns + 1, st.events ++ [(i, .spawn), (i, .kill)]⟩
  | .exits code =>
      if code ≠ 0 then
        if W.writeFault (artifactName .crashKind i) then
          .error (.writeFault (artifactName .crashKind i),
            ⟨st.crashes, st.writes, g2, st.spawns + 1,
             st.events ++ [(i, .spawn), (i, .reap)]⟩)
        else
          .ok ⟨st.crashes + 1, st.writes ++ [(artifactName .crashKind i, data)], g2,
            st.spawns + 1, st.events ++ [(i, .spawn), (i, .reap)]⟩
      else
        .ok ⟨st.crashes, st.writes, g2, st.spawns + 1,
          st.events ++ [(i, .spawn), (i, .reap)]⟩

/-- The loop from iteration i, for fuel further iterations. -/
def runFrom (W : World) : Nat → Nat → RunState → Except (Fault × RunState) RunState
  | _, 0, st => .ok st
  | i, fuel + 1, st =>
    match iterStep W i st with
    | .error e => .error e
    | .ok st2 => runFrom W (i + 1) fuel st2

/-- Campaign verdict. -/
inductive Verdict where
  | success
  | failureDetected
deriving DecidableEq

/-- Result of a completed campaign: the verdict, the process exit code of
the campaign itself, and the final loop state. -/
structure RunResult where
  verdict : Verdict
  exitCode : Nat
  final : RunState
deriving DecidableEq

/-- run_fuzz (source lines 20-73) with an explicit iteration budget n
(the script fixes n = ITERATIONS).  makedirs runs first and may fault; then
the loop; then the verdict: SUCCESS with exit code 0 when the crashes
counter is zero, FAILURE with exit code 1 otherwise. -/
def run_fuzz (W : World) (n : Nat) : Except (Fault × RunState) RunResult :=
  if W.mkdirFault then .error (.mkdirFault, RunState.init)
  else
    match runFrom W 0 n RunState.init with
    | .error e => .error e
    | .ok st =>
      if st.crashes = 0 then .ok ⟨.success, 0, st⟩
      else .ok ⟨.failureDetected, 1, st⟩

/-- The generation counters after i iterations, recomputed purely; they
evolve independently of the target. -/
def genStateAt (W : World) : Nat → GenState
  | 0 => GenState.init
  | i + 1 => (genPayload W.seed W.ent (genStateAt W i)).2

/-- The payload delivered on iteration i. -/
def payloadAt (W : World) (i : Nat) : List Byte :=
  (genPayload W.seed W.ent (genStateAt W i)).1

/-- The behaviour the target exhibits on iteration i. -/
def behaviorAt (W : World) (i : Nat) : TargetBehavior :=
  W.target i (payloadAt W i)

/-- The classified outcome of iteration i (none on a spawn fault). -/
def outcomeAt (W : World) (i : Nat) : Option Outcome :=
  classify (behaviorAt W i)

/-- The failure kind iteration i records, if any. -/
def failKindAt (W : World) (i : Nat) : Option FailKind :=
  match behaviorAt W i with
  | .spawnFault => none
  | .hang => some .timeoutKind
  | .exits code => if code = 0 then none else some .crashKind

/-- Does iteration i raise a harness fault? -/
def stepFaults (W : World) (i : Nat) : Bool :=
  match behaviorAt W i with
  | .spawnFault => true
  | .hang => W.writeFault (artifactName .timeoutKind i)
  | .exits code => if code = 0 then false else W.writeFault (artifactName .crashKind i)

/-- The loop state after i fault-free iterations (on a faulting iteration it
carries the state at the abort). -/
def stAt (W : World) : Nat → RunState
  | 0 => RunState.init
  | i + 1 =>
    match iterStep W i (stAt W i) with
    | .ok st => st
    | .error e => e.2

/-- The artifact writes a fault-free run has completed after n iterations:
one write per failing iteration, named by kind and index, containing the
payload of that iteration. -/
def expectedWrites (W : World) (n : Nat) : List (String × List Byte) :=
  (List.range n).filterMap
    (fun i => (failKindAt W i).map (fun k => (artifactName k i, payloadAt W i)))

/-- The process events of iteration i (none on a spawn fault; spawn then
kill on a timeout; spawn then reap otherwise). -/
def iterEventsAt (W : World) (i : Nat) : List (Nat × ProcEvent) :=
  match behaviorAt W i with
  | .spawnFault => []
  | .hang => [(i, .spawn), (i, .kill)]
  | .exits _ => [(i, .spawn), (i, .reap)]

/-- The fault an iteration would raise (meaningful when stepFaults holds). -/
def faultAt (W : World) (j : Nat) : Fault :=
  match behaviorAt W j with
  | .spawnFault => .spawnFault j
  | .hang => .writeFault (artifactName .timeoutKind j)
  | .exits _ => .writeFault (artifactName .crashKind j)

/-! The generation strategy (the data model of the spec) as selected by the
code on each iteration. -/

/-- GenerationStrategy: raw random bytes, structured noise, or the empty
payload. -/
inductive GenerationStrategy where
  | rawRandom (length : Nat)
  | structuredNoise (length : Nat)
  | empty
deriving DecidableEq

/-- The strategy iteration i selects, with its drawn length. -/
def strategyAt (W : World) (i : Nat) : GenerationStrategy :=
  if W.seed.randoms (genStateAt W i).rIdx < 1/2 then
    .rawRandom (randint (W.seed.randints (genStateAt W i).riIdx) 1 1024)
  else if W.seed.randoms (genStateAt W i).rIdx < 9/10 then
    .structuredNoise (randint (W.seed.randints (genStateAt W i).riIdx) 10 1000)
  else
    .empty

/-! Concrete environments used to evaluate the development on closed
inputs. -/

/-- A seed source whose draws are all zero. -/
def seedA : SeedSource := ⟨fun _ => 0, fun _ => 0, fun _ => 0⟩

/-- An OS entropy pool of zero bytes. -/
def entA : OsEntropy := ⟨fun _ _ => 0⟩

/-- An OS entropy pool of one bytes. -/
def entB : OsEntropy := ⟨fun _ _ => 1⟩

/-- A target that always exits with code one (an always-crashing target). -/
def targetCrash : Nat → List Byte → TargetBehavior := fun _ _ => .exits 1

/-- A target that always hangs past the deadline. -/
def targetHang : Nat → List Byte → TargetBehavior := fun _ _ => .hang

/-- A target whose executable cannot be spawned. -/
def targetFault : Nat → List Byte → TargetBehavior := fun _ _ => .spawnFault

/-- Environment with the always-crashing target and no harness fault. -/
def demoWorld : World := ⟨seedA, entA, targetCrash, false, fun _ => false⟩

/-- Same configuration and seed as demoWorld, different OS entropy. -/
def demoWorldB : World := ⟨seedA, entB, targetCrash, false, fun _ => false⟩

/-- Environment with the hanging target. -/
def hangWorld : World := ⟨seedA, entA, targetHang, false, fun _ => false⟩

/-- Environment whose target cannot be spawned. -/
def faultWorld : World := ⟨seedA, entA, targetFault, false, fun _ => false⟩

/-- Environment whose corpus directory cannot be created. -/
def mkdirWorld : World := ⟨seedA, entA, targetCrash, true, fun _ => false⟩

/-- Result of a one-iteration campaign against the always-crashing
target. -/
def demoRes : RunResult :=
  match run_fuzz demoWorld 1 with
  | .ok r => r
  | .error _ => ⟨.success, 0, RunState.init⟩

/-- State after one supervisor call against the hanging target. -/
def hangStepState : RunState :=
  match iterStep hangWorld 0 RunState.init with
  | .ok st => st
  | .error e => e.2

/-! Decimal numerals: the artifact names embed the iteration index through
Nat.repr.  We prove Nat.repr injective by exhibiting a left inverse (the
value of the digit string), which gives collision-freedom of artifact
names. -/

/-- Value of one decimal digit character. -/
def digitVal (c : Char) : Nat := c.toNat - 48

/-- Value of a character list read as a base-ten numeral. -/
def decimalVal (l : List Char) : Nat := l.foldl (fun a c => a * 10 + digitVal c) 0

/-- digitVal undoes Nat.digitChar on single digits. -/
theorem digitVal_digitChar (m : Nat) (h : m < 10) : digitVal (Nat.digitChar m) = m := by
  interval_cases m <;> rfl

/-- Appending one character multiplies the value by ten and adds the digit. -/
theorem decimalVal_append (l : List Char) (c : Char) :
    decimalVal (l ++ [c]) = decimalVal l * 10 + digitVal c := by
  simp [decimalVal, List.foldl_append]

/-- The accumulator of Nat.toDigitsCore is just appended to the result. -/
theorem toDigitsCore_append (f : Nat) :
    ∀ (n : Nat) (acc : List Char),
      Nat.toDigitsCore 10 f n acc = Nat.toDigitsCore 10 f n [] ++ acc := by
  induction f with
  | zero => intro n acc; simp [Nat.toDigitsCore]
  | succ f ih =>
    intro n acc
    simp only [Nat.toDigitsCore]
    by_cases h : n / 10 = 0
    · simp [h]
    · simp only [h, if_false]
      rw [ih (n / 10) (Nat.digitChar (n % 10) :: acc),
        ih (n / 10) [Nat.digitChar (n % 10)], List.append_assoc]
      rfl

/-- With enough fuel, decimalVal recovers the number from Nat.toDigitsCore. -/
theorem toDigitsCore_val (f : Nat) :
    ∀ n, n < 10 ^ f → decimalVal (Nat.toDigitsCore 10 f n []) = n := by
  induction f with
  | zero =>
    intro n hn
    have h0 : n = 0 := by simpa using hn
    subst h0; rfl
  | succ f ih =>
    intro n hn
    simp only [Nat.toDigitsCore]
    by_cases h : n / 10 = 0
    · have hlt : n < 10 := by omega
      simp only [h, if_true]
      have : decimalVal [Nat.digitChar (n % 10)] = digitVal (Nat.digitChar (n % 10)) := by
        simp [decimalVal]
      rw [this, digitVal_digitChar (n % 10) (by omega)]
      omega
    · simp only [h, if_false]
      rw [toDigitsCore_append f (n / 10) [Nat.digitChar (n % 10)], decimalVal_append]
      have hpow : (10 : Nat) ^ (f + 1) = 10 ^ f * 10 := pow_succ 10 f
      rw [ih (n / 10) (by omega), digitVal_digitChar (n % 10) (by omega)]
      omega

/-- decimalVal is a left inverse of the decimal rendering. -/
theorem decimalVal_toDigits (n : Nat) : decimalVal (Nat.toDigits 10 n) = n := by
  have h1 : n < 10 ^ n := Nat.lt_pow_self (by norm_num) n
  have h2 : (10 : Nat) ^ n ≤ 10 ^ (n + 1) := Nat.pow_le_pow_right (by norm_num) (Nat.le_succ n)
  exact toDigitsCore_val (n + 1) n (lt_of_lt_of_le h1 h2)

/-- Equal decimal renderings (as character lists) come from equal numbers. -/
theorem repr_data_inj {m n : Nat} (h : (Nat.repr m).data = (Nat.repr n).data) : m = n := by
  have h2 : Nat.toDigits 10 m = Nat.toDigits 10 n := h
  have h3 := congrArg decimalVal h2
  rwa [decimalVal_toDigits, decimalVal_toDigits] at h3

/-- Nat.repr is injective. -/
theorem repr_injective : Function.Injective Nat.repr := by
  intro m n h
  exact repr_data_inj (congrArg String.data h)

/-- The two artifact-name prefixes differ (position one is t versus c), so a
timeout name can never equal a crash name, whatever the suffixes. -/
theorem timeout_crash_prefix_ne {X Y : List Char}
    (h : "/timeout_".data ++ X = "/crash_".data ++ Y) : False := by
  have h2 : ("/timeout_".data ++ X)[1]? = ("/crash_".data ++ Y)[1]? :=
    congrArg (fun l => l[1]?) h
  rw [List.getElem?_append_left (by decide), List.getElem?_append_left (by decide)] at h2
  exact absurd h2 (by decide)

/-- Artifact names determine the failure kind and the iteration index:
distinct failing iterations can never collide on a file name. -/
theorem artifactName_inj {k k2 : FailKind} {i j : Nat}
    (h : artifactName k i = artifactName k2 j) : k = k2 ∧ i = j := by
  have hd := congrArg String.data h
  cases k <;> cases k2 <;>
    simp only [artifactName, CRASHES_DIR, String.data_append, List.append_assoc] at hd
  case timeoutKind.timeoutKind =>
    refine ⟨rfl, ?_⟩
    have h1 := List.append_cancel_left hd
    have h2 := List.append_cancel_left h1
    exact repr_data_inj (List.append_cancel_right h2)
  case timeoutKind.crashKind =>
    exact absurd (List.append_cancel_left hd) (fun hx => timeout_crash_prefix_ne hx)
  case crashKind.timeoutKind =>
    exact absurd (List.append_cancel_left hd).symm (fun hx => timeout_crash_prefix_ne hx)
  case crashKind.crashKind =>
    refine ⟨rfl, ?_⟩
    have h1 := List.append_cancel_left hd
    have h2 := List.append_cancel_left h1
    exact repr_data_inj (List.append_cancel_right h2)

/-! Branch lemmas for payload generation. -/

/-- Raw-random branch of the strategy mix (rand below one half). -/
theorem genPayload_raw (s : SeedSource) (e : OsEntropy) (g : GenState)
    (h : s.randoms g.rIdx < 1/2) :
    genPayload s e g =
      (generate_garbage e g.urIdx (randint (s.randints g.riIdx) 1 1024),
       ⟨g.rIdx + 1, g.riIdx + 1, g.chIdx, g.urIdx + 1⟩) := by
  simp only [genPayload]
  rw [if_pos h]

/-- Structured-noise branch (rand in the second bucket). -/
theorem genPayload_json (s : SeedSource) (e : OsEntropy) (g : GenState)
    (h1 : ¬ s.randoms g.rIdx < 1/2) (h2 : s.randoms g.rIdx < 9/10) :
    genPayload s e g =
      ((generate_json_garbage s g.riIdx g.chIdx).2,
       ⟨g.rIdx + 1, g.riIdx + 1, g.chIdx + (generate_json_garbage s g.riIdx g.chIdx).1,
        g.urIdx⟩) := by
  simp only [genPayload]
  rw [if_neg h1, if_pos h2]

/-- Empty-payload branch (rand in the top bucket). -/
theorem genPayload_empty (s : SeedSource) (e : OsEntropy) (g : GenState)
    (h : ¬ s.randoms g.rIdx < 9/10) :
    genPayload s e g = ([], ⟨g.rIdx + 1, g.riIdx, g.chIdx, g.urIdx⟩) := by
  have h1 : ¬ s.randoms g.rIdx < 1/2 := by
    intro hlt
    exact h (lt_trans hlt (by norm_num))
  simp only [genPayload]
  rw [if_neg h1, if_neg h]

/-- The updated generation counters never depend on the OS entropy pool. -/
theorem genPayload_gen_ent (s : SeedSource) (e e2 : OsEntropy) (g : GenState) :
    (genPayload s e g).2 = (genPayload s e2 g).2 := by
  by_cases h1 : s.randoms g.rIdx < 1/2
  · rw [genPayload_raw s e g h1, genPayload_raw s e2 g h1]
  · by_cases h2 : s.randoms g.rIdx < 9/10
    · rw [genPayload_json s e g h1 h2, genPayload_json s e2 g h1 h2]
    · rw [genPayload_empty s e g h2, genPayload_empty s e2 g h2]

/-! The loop state machine. -/

/-- Unfolding of stAt at a successor. -/
theorem stAt_succ (W : World) (i : Nat) :
    stAt W (i + 1) =
      (match iterStep W i (stAt W i) with
       | .ok st => st
       | .error e => e.2) := rfl

/-- Whatever the iteration does, the state it leaves behind (also at an
abort) carries the updated generation counters. -/
theorem iterStep_gen (W : World) (i : Nat) (st : RunState) :
    (match iterStep W i st with
     | .ok s => s
     | .error e => e.2).gen = (genPayload W.seed W.ent st.gen).2 := by
  simp only [iterStep]
  cases hb : W.target i (genPayload W.seed W.ent st.gen).1
  · rfl
  · by_cases hw : W.writeFault (artifactName .timeoutKind i) <;> simp [hw]
  case exits code =>
    by_cases hc : code = 0
    · simp [hc]
    · by_cases hw : W.writeFault (artifactName .crashKind i) <;> simp [hc, hw]

/-- The loop state always carries the purely recomputed generation
counters. -/
theorem stAt_gen (W : World) : ∀ i, (stAt W i).gen = genStateAt W i := by
  intro i
  induction i with
  | zero => rfl
  | succ i ih =>
    rw [stAt_succ]
    calc (match iterStep W i (stAt W i) with
          | .ok s => s
          | .error e => e.2).gen
        = (genPayload W.seed W.ent (stAt W i).gen).2 := iterStep_gen W i (stAt W i)
      _ = genStateAt W (i + 1) := by rw [ih]; rfl

/-- Full characterisation of one iteration launched from the reached loop
state, by the behaviour the target exhibits. -/
theorem iterStep_stAt (W : World) (i : Nat) :
    iterStep W i (stAt W i) =
      (match behaviorAt W i with
       | .spawnFault => .error (.spawnFault i,
           ⟨(stAt W i).crashes, (stAt W i).writes, genStateAt W (i+1),
            (stAt W i).spawns, (stAt W i).events⟩)
       | .hang =>
         if W.writeFault (artifactName .timeoutKind i) then
           .error (.writeFault (artifactName .timeoutKind i),
             ⟨(stAt W i).crashes, (stAt W i).writes, genStateAt W (i+1),
              (stAt W i).spawns + 1, (stAt W i).events ++ [(i, .spawn), (i, .kill)]⟩)
         else
           .ok ⟨(stAt W i).crashes + 1,
             (stAt W i).writes ++ [(artifactName .timeoutKind i, payloadAt W i)],
             genStateAt W (i+1), (stAt W i).spawns + 1,
             (stAt W i).events ++ [(i, .spawn), (i, .kill)]⟩
       | .exits code =>
         if code ≠ 0 then
           if W.writeFault (artifactName .crashKind i) then
             .error (.writeFault (artifactName .crashKind i),
               ⟨(stAt W i).crashes, (stAt W i).writes, genStateAt W (i+1),
                (stAt W i).spawns + 1, (stAt W i).events ++ [(i, .spawn), (i, .reap)]⟩)
           else
             .ok ⟨(stAt W i).crashes + 1,
               (stAt W i).writes ++ [(artifactName .crashKind i, payloadAt W i)],
               genStateAt W (i+1), (stAt W i).spawns + 1,
               (stAt W i).events ++ [(i, .spawn), (i, .reap)]⟩
         else
           .ok ⟨(stAt W i).crashes, (stAt W i).writes, genStateAt W (i+1),
             (stAt W i).spawns + 1, (stAt W i).events ++ [(i, .spawn), (i, .reap)]⟩) := by
  simp only [iterStep]
  rw [stAt_gen W i]
  rfl

/-- A fault-free iteration moves the loop state one step forward. -/
theorem iterStep_stAt_ok (W : World) (i : Nat) (h : stepFaults W i = false) :
    iterStep W i (stAt W i) = .ok (stAt W (i + 1)) := by
  rw [stAt_succ, iterStep_stAt]
  cases hb : behaviorAt W i
  · simp [stepFaults, hb] at h
  · simp only [stepFaults, hb] at h
    simp [h]
  case exits code =>
    by_cases hc : code = 0
    · simp [hc]
    · simp only [stepFaults, hb, if_neg hc] at h
      simp [hc, h]

/-- A faulting iteration raises, and the state at the abort is recorded by
stAt at the next index. -/
theorem iterStep_stAt_err (W : World) (j : Nat) (h : stepFaults W j = true) :
    iterStep W j (stAt W j) = .error (faultAt W j, stAt W (j + 1)) := by
  rw [stAt_succ, iterStep_stAt, faultAt]
  cases hb : behaviorAt W j
  · simp
  · simp only [stepFaults, hb] at h
    simp [h]
  case exits code =>
    by_cases hc : code = 0
    · simp [stepFaults, hb, hc] at h
    · simp only [stepFaults, hb, if_neg hc] at h
      simp [hc, h]

/-- Components of the loop state after n fault-free iterations: the write
log is exactly one artifact per failing iteration; the crashes counter is
its length; one process was spawned per iteration; the event log is the
concatenation of the per-iteration process events. -/
theorem stAt_char (W : World) :
    ∀ n, (∀ j, j < n → stepFaults W j = false) →
      (stAt W n).writes = expectedWrites W n ∧
      (stAt W n).crashes = (expectedWrites W n).length ∧
      (stAt W n).spawns = n ∧
      (stAt W n).events = ((List.range n).map (iterEventsAt W)).flatten := by
  intro n
  induction n with
  | zero => intro _; exact ⟨rfl, rfl, rfl, rfl⟩
  | succ i ih =>
    intro h
    obtain ⟨hw, hc, hs, he⟩ := ih (fun j hj => h j (Nat.lt_succ_of_lt hj))
    have hfi : stepFaults W i = false := h i (Nat.lt_succ_self i)
    have hexp : expectedWrites W (i + 1) =
        expectedWrites W i ++ ([i].filterMap
          (fun j => (failKindAt W j).map (fun k => (artifactName k j, payloadAt W j)))) := by
      rw [expectedWrites, expectedWrites, List.range_succ, List.filterMap_append]
    have hev : ((List.range (i + 1)).map (iterEventsAt W)).flatten =
        ((List.range i).map (iterEventsAt W)).flatten ++ iterEventsAt W i := by
      rw [List.range_succ, List.map_append, List.flatten_append]
      simp
    rw [stAt_succ, iterStep_stAt]
    cases hb : behaviorAt W i
    · simp [stepFaults, hb] at hfi
    · simp only [stepFaults, hb] at hfi
      simp only [hfi, if_false, Bool.false_eq_true]
      refine ⟨?_, ?_, ?_, ?_⟩
      · rw [hw, hexp]
        simp [failKindAt, hb]
      · rw [hc, hexp]
        simp [failKindAt, hb]
      · simpa using hs
      · rw [he, hev]
        simp [iterEventsAt, hb]
    case exits code =>
      by_cases hcode : code = 0
      · simp only [hcode]
        have hk : failKindAt W i = none := by simp [failKindAt, hb, hcode]
        refine ⟨?_, ?_, ?_, ?_⟩
        · simp only [if_neg (by simp : ¬ (0 : Int) ≠ 0)]
          rw [hw, hexp]
          simp [failKindAt, hb, hcode]
        · simp only [if_neg (by simp : ¬ (0 : Int) ≠ 0)]
          rw [hc, hexp]
          simp [failKindAt, hb, hcode]
        · simp only [if_neg (by simp : ¬ (0 : Int) ≠ 0)]
          simpa using hs
        · simp only [if_neg (by simp : ¬ (0 : Int) ≠ 0)]
          rw [he, hev]
          simp [iterEventsAt, hb]
      · simp only [stepFaults, hb, if_neg hcode] at hfi
        have hk : failKindAt W i = some .crashKind := by simp [failKindAt, hb, hcode]
        simp only [if_pos hcode, hfi, if_false, Bool.false_eq_true]
        refine ⟨?_, ?_, ?_, ?_⟩
        · rw [hw, hexp]
          simp [failKindAt, hb, hcode]
        · rw [hc, hexp]
          simp [failKindAt, hb, hcode]
        · simpa using hs
        · rw [he, hev]
          simp [iterEventsAt, hb]

/-- A fault-free stretch of the loop runs to completion. -/
theorem runFrom_no_fault (W : World) :
    ∀ (k i : Nat), (∀ j, i ≤ j → j < i + k → stepFaults W j = false) →
      runFrom W i k (stAt W i) = .ok (stAt W (i + k)) := by
  intro k
  induction k with
  | zero => intro i _; rfl
  | succ k ih =>
    intro i h
    have hstep := iterStep_stAt_ok W i (h i le_rfl (by omega))
    have hrec := ih (i + 1) (fun j hj1 hj2 => h j (by omega) (by omega))
    have harith : i + 1 + k = i + (k + 1) := by omega
    rw [harith] at hrec
    simp only [runFrom, hstep]
    exact hrec

/-- If the first fault sits at iteration j0 inside the budget, the loop
raises exactly that fault, with the abort state recorded by stAt. -/
theorem runFrom_fault (W : World) :
    ∀ (k i j0 : Nat), i ≤ j0 → j0 < i + k →
      (∀ j, i ≤ j → j < j0 → stepFaults W j = false) →
      stepFaults W j0 = true →
      runFrom W i k (stAt W i) = .error (faultAt W j0, stAt W (j0 + 1)) := by
  intro k
  induction k with
  | zero => intro i j0 h1 h2 _ _; omega
  | succ k ih =>
    intro i j0 hij hlt hpre hf
    by_cases he : i = j0
    · subst he
      simp only [runFrom, iterStep_stAt_err W i hf]
    · have hi1 : i < j0 := lt_of_le_of_ne hij he
      have hok := iterStep_stAt_ok W i (hpre i le_rfl hi1)
      have hrec := ih (i + 1) j0 (by omega) (by omega)
        (fun j hj1 hj2 => hpre j (by omega) hj2) hf
      simp only [runFrom, hok]
      exact hrec

/-- A campaign with no harness fault completes, with the verdict and exit
code computed from the final crashes counter. -/
theorem run_fuzz_no_fault (W : World) (n : Nat) (hmk : W.mkdirFault = false)
    (h : ∀ j, j < n → stepFaults W j = false) :
    run_fuzz W n =
      .ok ⟨if (stAt W n).crashes = 0 then .success else .failureDetected,
           if (stAt W n).crashes = 0 then 0 else 1, stAt W n⟩ := by
  have h0 : RunState.init = stAt W 0 := rfl
  have hrun := runFrom_no_fault W n 0 (fun j hj1 hj2 => h j (by omega))
  rw [Nat.zero_add] at hrun
  simp only [run_fuzz, hmk, Bool.false_eq_true, if_false, h0, hrun]
  by_cases hc : (stAt W n).crashes = 0
  · rw [if_pos hc, if_pos hc, if_pos hc]
  · rw [if_neg hc, if_neg hc, if_neg hc]

/-- Conversely, a campaign that returned a verdict ran with no harness
fault, and its result is determined by the final loop state. -/
theorem run_fuzz_ok_inv (W : World) (n : Nat) (r : RunResult)
    (h : run_fuzz W n = .ok r) :
    W.mkdirFault = false ∧ (∀ j, j < n → stepFaults W j = false) ∧
      r.final = stAt W n ∧
      r.verdict = (if (stAt W n).crashes = 0 then .success else .failureDetected) ∧
      r.exitCode = (if (stAt W n).crashes = 0 then 0 else 1) := by
  have hmk : W.mkdirFault = false := by
    by_contra hm
    rw [Bool.not_eq_false] at hm
    simp [run_fuzz, hm] at h
  have hnf : ∀ j, j < n → stepFaults W j = false := by
    by_contra hex
    push_neg at hex
    obtain ⟨j, hj, hjf⟩ := hex
    rw [ne_eq, Bool.not_eq_false] at hjf
    have hP : ∃ m, m < n ∧ stepFaults W m = true := ⟨j, hj, hjf⟩
    have hfind := Nat.find_spec hP
    have hmin := fun m (hm : m < Nat.find hP) => Nat.find_min hP hm
    set j0 := Nat.find hP with hj0
    have hpre : ∀ m, 0 ≤ m → m < j0 → stepFaults W m = false := by
      intro m _ hm
      have := hmin m hm
      push_neg at this
      by_cases hmn : m < n
      · by_contra hff
        rw [Bool.not_eq_false] at hff
        exact absurd hff (this hmn)
      · exact absurd (lt_trans hm (lt_of_lt_of_le hfind.1 (le_refl n))) hmn
    have herr := runFrom_fault W n 0 j0 (Nat.zero_le j0)
      (by simpa using hfind.1) hpre hfind.2
    have h0 : RunState.init = stAt W 0 := rfl
    rw [run_fuzz, if_neg (by simp [hmk]), h0, herr] at h
    exact Except.noConfusion h
  have hrun := run_fuzz_no_fault W n hmk hnf
  rw [hrun] at h
  have hr := Except.ok.inj h
  refine ⟨hmk, hnf, ?_, ?_, ?_⟩
  · rw [← hr]
  · rw [← hr]
  · rw [← hr]

/-! The crash corpus: membership, uniqueness and collision-freedom. -/

/-- Every failing iteration inside the budget has its artifact in the
expected write log. -/
theorem expectedWrites_mem (W : World) {n i : Nat} {k : FailKind} (hi : i < n)
    (hk : failKindAt W i = some k) :
    (artifactName k i, payloadAt W i) ∈ expectedWrites W n := by
  rw [expectedWrites]
  exact List.mem_filterMap.mpr ⟨i, List.mem_range.mpr hi, by rw [hk]; rfl⟩

/-- A write in the expected log is determined by its file name. -/
theorem expectedWrites_name_unique (W : World) {n : Nat} {p : String × List Byte}
    (hp : p ∈ expectedWrites W n) {i : Nat} {k : FailKind}
    (hname : p.1 = artifactName k i) :
    p = (artifactName k i, payloadAt W i) := by
  rw [expectedWrites] at hp
  obtain ⟨j, _, hfj⟩ := List.mem_filterMap.mp hp
  cases hk2 : failKindAt W j with
  | none => rw [hk2] at hfj; exact absurd hfj (by simp)
  | some k2 =>
    rw [hk2] at hfj
    simp only [Option.map_some', Option.some.injEq] at hfj
    rw [← hfj] at hname
    obtain ⟨hkk, hii⟩ := artifactName_inj hname.symm
    rw [← hfj, ← hkk, ← hii]

/-- The file names of the expected write log are pairwise distinct: records
never collide or overwrite each other. -/
theorem expectedWrites_name_nodup (W : World) (n : Nat) :
    ((expectedWrites W n).map Prod.fst).Nodup := by
  rw [expectedWrites, List.map_filterMap]
  refine List.Nodup.filterMap ?_ (List.nodup_range n)
  intro a a2 b hb hb2
  cases hk1 : failKindAt W a with
  | none => rw [hk1] at hb; exact absurd hb (by simp)
  | some k1 =>
    cases hk2 : failKindAt W a2 with
    | none => rw [hk2] at hb2; exact absurd hb2 (by simp)
    | some k2 =>
      rw [hk1] at hb
      rw [hk2] at hb2
      simp only [Option.map_some', Option.mem_def, Option.some.injEq] at hb hb2
      have : artifactName k1 a = artifactName k2 a2 := by
        have e1 : artifactName k1 a = b := hb
        have e2 : artifactName k2 a2 = b := hb2
        rw [e1, e2]
      exact (artifactName_inj this).2

/-! Process events of a completed campaign. -/

/-- Under no spawn fault, filtering the concatenated event log for spawn
events yields exactly one spawn per iteration, in order. -/
theorem flatten_filter_spawn (W : World) :
    ∀ n, (∀ j, j < n → behaviorAt W j ≠ .spawnFault) →
      ((((List.range n).map (iterEventsAt W)).flatten).filter
          (fun p => p.2 == ProcEvent.spawn)) =
        (List.range n).map (fun i => (i, ProcEvent.spawn)) := by
  intro n
  induction n with
  | zero => intro _; rfl
  | succ i ih =>
    intro h
    rw [List.range_succ, List.map_append, List.flatten_append, List.filter_append,
      ih (fun j hj => h j (Nat.lt_succ_of_lt hj)), List.map_append]
    cases hb : behaviorAt W i
    · exact absurd hb (h i (Nat.lt_succ_self i))
    · simp [iterEventsAt, hb]
    · simp [iterEventsAt, hb]

/-- A fault-free iteration never raises a spawn fault. -/
theorem behavior_ne_spawnFault (W : World) {j : Nat} (h : stepFaults W j = false) :
    behaviorAt W j ≠ .spawnFault := by
  intro hb
  simp [stepFaults, hb] at h

/-- The generation counters depend only on the seeded source. -/
theorem genStateAt_seed_only (W1 W2 : World) (hs : W1.seed = W2.seed) :
    ∀ i, genStateAt W1 i = genStateAt W2 i := by
  intro i
  induction i with
  | zero => rfl
  | succ i ih =>
    show (genPayload W1.seed W1.ent (genStateAt W1 i)).2
        = (genPayload W2.seed W2.ent (genStateAt W2 i)).2
    rw [hs, ih]
    exact genPayload_gen_ent W2.seed W1.ent W2.ent (genStateAt W2 i)

/-! Remaining helper lemmas. -/

/-- os.urandom returns exactly the requested number of bytes. -/
theorem urandom_length (e : OsEntropy) (k n : Nat) : (e.urandom k n).length = n := by
  simp [OsEntropy.urandom]

/-- Indexing the alphabet modulo its size always yields an alphabet
letter. -/
theorem chars_getD_mem (m : Nat) : chars.getD (m % chars.length) 0 ∈ chars := by
  have hlt : m % chars.length < chars.length := Nat.mod_lt _ (by decide)
  rw [List.getD_eq_getElem chars 0 hlt]
  exact List.getElem_mem hlt

/-- A faulting iteration leaves the write log and the crashes counter
untouched and spawns at most one further process. -/
theorem stAt_succ_fault (W : World) (i : Nat) (hf : stepFaults W i = true) :
    (stAt W (i + 1)).writes = (stAt W i).writes ∧
    (stAt W (i + 1)).crashes = (stAt W i).crashes ∧
    (stAt W (i + 1)).spawns ≤ (stAt W i).spawns + 1 := by
  rw [stAt_succ, iterStep_stAt]
  cases hb : behaviorAt W i
  · simp
  · simp only [stepFaults, hb] at hf
    simp [hf]
  case exits code =>
    by_cases hc : code = 0
    · simp [stepFaults, hb, hc] at hf
    · simp only [stepFaults, hb, if_neg hc] at hf
      simp [hc, hf]

/-! The claims. -/

/-- Claim C1: every supervised execution (a call where the spawn succeeded)
is classified into exactly one of Normal, AbnormalExit, Timeout — Timeout
when the deadline was exceeded (in which case the process is forcibly
killed), Normal on self-exit with code zero, AbnormalExit on self-exit with
a nonzero code; never none and never more than one of these. -/
theorem claim_C1_outcome_partition :
    (∀ b : TargetBehavior, b ≠ .spawnFault →
      ∃ o : Outcome, classify b = some o ∧
        o.isNormal.toNat + o.isAbnormal.toNat + o.isTimeout.toNat = 1 ∧
        (b = .hang → o = .timeout) ∧
        (∀ c : Int, b = .exits c → (c = 0 → o = .normal c) ∧ (c ≠ 0 → o = .abnormalExit c))) ∧
    (∀ (W : World) (i : Nat) (st st2 : RunState),
      iterStep W i st = .ok st2 →
      W.target i (genPayload W.seed W.ent st.gen).1 = .hang →
      (i, ProcEvent.kill) ∈ st2.events) := by
  constructor
  · intro b hb
    cases b with
    | spawnFault => exact absurd rfl hb
    | hang =>
      refine ⟨.timeout, rfl, by decide, fun _ => rfl, ?_⟩
      intro c hc
      exact absurd hc (by simp)
    | exits c =>
      by_cases hc : c = 0
      · subst hc
        refine ⟨.normal 0, by simp [classify], by decide, by simp, ?_⟩
        intro c2 hc2
        have hcc : (0 : Int) = c2 := by injection hc2
        subst hcc
        exact ⟨fun _ => rfl, fun h0 => absurd rfl h0⟩
      · refine ⟨.abnormalExit c, by simp [classify, hc], rfl, by simp, ?_⟩
        intro c2 hc2
        have hcc : c = c2 := by injection hc2
        subst hcc
        exact ⟨fun h0 => absurd h0 hc, fun _ => rfl⟩
  · intro W i st st2 hok htgt
    simp only [iterStep, htgt] at hok
    by_cases hw : W.writeFault (artifactName .timeoutKind i)
    · rw [if_pos hw] at hok
      exact Except.noConfusion hok
    · rw [if_neg hw] at hok
      rw [← Except.ok.inj hok]
      simp

/-- Witness for C1 at concrete inputs: the hanging behaviour is classified
as Timeout, and the kill is on the event log of the call. -/
theorem claim_C1_witness :
    classify TargetBehavior.hang = some Outcome.timeout ∧
    (0, ProcEvent.kill) ∈ hangStepState.events := by
  constructor
  · obtain ⟨o, ho, _, hh, _⟩ :=
      claim_C1_outcome_partition.1 TargetBehavior.hang (by decide)
    rw [ho, hh rfl]
  · exact claim_C1_outcome_partition.2 hangWorld 0 RunState.init hangStepState rfl rfl

/-- Claim C2: a completed campaign has verdict Success exactly when the
crashes counter is zero, FailureDetected otherwise, and the process exit
code of the campaign is zero exactly on zero recorded failures and one
otherwise. -/
theorem claim_C2_verdict :
    ∀ (W : World) (n : Nat) (r : RunResult), run_fuzz W n = .ok r →
      (r.verdict = .success ↔ r.final.crashes = 0) ∧
      (r.verdict = .failureDetected ↔ r.final.crashes ≠ 0) ∧
      (r.final.crashes = 0 → r.exitCode = 0) ∧
      (r.final.crashes ≠ 0 → r.exitCode = 1) := by
  intro W n r h
  obtain ⟨_, _, hfin, hv, he⟩ := run_fuzz_ok_inv W n r h
  rw [hv, he, hfin]
  by_cases hc : (stAt W n).crashes = 0 <;> simp [hc]

/-- Witness for C2: the one-iteration campaign against the always-crashing
target ends with verdict FailureDetected and exit code one. -/
theorem claim_C2_witness :
    demoRes.verdict = Verdict.failureDetected ∧ demoRes.exitCode = 1 := by
  have h := claim_C2_verdict demoWorld 1 demoRes rfl
  have hc : demoRes.final.crashes = 1 := rfl
  exact ⟨h.2.1.mpr (by rw [hc]; omega), h.2.2.2 (by rw [hc]; omega)⟩

/-- Claim C4: a failing iteration (Timeout or AbnormalExit) appends exactly
its completed artifact write to the log before the iteration ends (the
with-open block closes the file within the step), and a passing iteration
writes nothing. -/
theorem claim_C4_persist_before_next :
    ∀ (W : World) (i : Nat) (st st2 : RunState), iterStep W i st = .ok st2 →
      (classify (W.target i (genPayload W.seed W.ent st.gen).1) = some .timeout →
        st2.writes = st.writes ++
          [(artifactName .timeoutKind i, (genPayload W.seed W.ent st.gen).1)]) ∧
      (∀ c : Int, c ≠ 0 →
        classify (W.target i (genPayload W.seed W.ent st.gen).1) = some (.abnormalExit c) →
        st2.writes = st.writes ++
          [(artifactName .crashKind i, (genPayload W.seed W.ent st.gen).1)]) ∧
      (classify (W.target i (genPayload W.seed W.ent st.gen).1) = some (.normal 0) →
        st2.writes = st.writes) := by
  intro W i st st2 h
  cases hb : W.target i (genPayload W.seed W.ent st.gen).1 with
  | spawnFault =>
    simp only [iterStep, hb] at h
    exact Except.noConfusion h
  | hang =>
    simp only [iterStep, hb] at h
    by_cases hw : W.writeFault (artifactName .timeoutKind i)
    · rw [if_pos hw] at h
      exact Except.noConfusion h
    · rw [if_neg hw] at h
      refine ⟨fun _ => ?_, fun c hc hcl => ?_, fun hcl => ?_⟩
      · rw [← Except.ok.inj h]
      · exact absurd hcl (by simp [classify])
      · exact absurd hcl (by simp [classify])
  | exits code =>
    simp only [iterStep, hb] at h
    by_cases hc0 : code = 0
    · subst hc0
      rw [if_neg (by simp)] at h
      refine ⟨fun hcl => ?_, fun c hc hcl => ?_, fun _ => ?_⟩
      · exact absurd hcl (by simp [classify])
      · exact absurd hcl (by simp [classify, hc.symm])
      · rw [← Except.ok.inj h]
    · rw [if_pos hc0] at h
      by_cases hw : W.writeFault (artifactName .crashKind i)
      · rw [if_pos hw] at h
        exact Except.noConfusion h
      · rw [if_neg hw] at h
        refine ⟨fun hcl => ?_, fun c hc hcl => ?_, fun hcl => ?_⟩
        · exact absurd hcl (by simp [classify, hc0])
        · rw [← Except.ok.inj h]
        · exact absurd hcl (by simp [classify, hc0])

/-- Witness for C4: the timeout iteration of the hanging demo appends its
timeout artifact, with the delivered payload as content. -/
theorem claim_C4_witness :
    hangStepState.writes = RunState.init.writes ++
      [(artifactName FailKind.timeoutKind 0,
        (genPayload hangWorld.seed hangWorld.ent RunState.init.gen).1)] :=
  (claim_C4_persist_before_next hangWorld 0 RunState.init hangStepState rfl).1 rfl

/-- Claim C8 as amended: each completed supervisor call spawns exactly one
process and either reaps it (when it exited on its own) or force-kills it
(when it timed out); on the timeout path the call returns after the kill
without reaping the process. -/
theorem claim_C8_amended_lifecycle :
    ∀ (W : World) (i : Nat) (st st2 : RunState), iterStep W i st = .ok st2 →
      ∃ ev, st2.events = st.events ++ ev ∧
        ev.count (i, ProcEvent.spawn) = 1 ∧
        ((i, ProcEvent.reap) ∈ ev ∨ (i, ProcEvent.kill) ∈ ev) ∧
        ((i, ProcEvent.kill) ∈ ev ↔ W.target i (genPayload W.seed W.ent st.gen).1 = .hang) ∧
        ((i, ProcEvent.reap) ∈ ev ↔
          ∃ c, W.target i (genPayload W.seed W.ent st.gen).1 = .exits c) := by
  intro W i st st2 h
  cases hb : W.target i (genPayload W.seed W.ent st.gen).1 with
  | spawnFault =>
    simp only [iterStep, hb] at h
    exact Except.noConfusion h
  | hang =>
    simp only [iterStep, hb] at h
    by_cases hw : W.writeFault (artifactName .timeoutKind i)
    · rw [if_pos hw] at h
      exact Except.noConfusion h
    · rw [if_neg hw] at h
      refine ⟨[(i, .spawn), (i, .kill)], by rw [← Except.ok.inj h], by simp, Or.inr (by simp),
        by simp, by simp⟩
  | exits code =>
    simp only [iterStep, hb] at h
    by_cases hc0 : code = 0
    · subst hc0
      rw [if_neg (by simp)] at h
      refine ⟨[(i, .spawn), (i, .reap)], by rw [← Except.ok.inj h], by simp, Or.inl (by simp),
        by simp, by simp⟩
    · rw [if_pos hc0] at h
      by_cases hw : W.writeFault (artifactName .crashKind i)
      · rw [if_pos hw] at h
        exact Except.noConfusion h
      · rw [if_neg hw] at h
        refine ⟨[(i, .spawn), (i, .reap)], by rw [← Except.ok.inj h], by simp, Or.inl (by simp),
          by simp, by simp⟩

/-- Witness for the amended C8: on the concrete hanging run the kill is in
the event log of the call. -/
theorem claim_C8_amended_witness : (0, ProcEvent.kill) ∈ hangStepState.events := by
  obtain ⟨ev, hev, _, _, hkill, _⟩ :=
    claim_C8_amended_lifecycle hangWorld 0 RunState.init hangStepState rfl
  rw [hev]
  exact List.mem_append_right _ (hkill.mpr rfl)

/-- Counterexample to C8 as stated: on a timeout the call returns after
process.kill with no wait, so the supervisor call completes without the
killed process ever being reaped — refuting that the call returns only
after the process has been terminated and reaped on every exit path. -/
theorem claim_C8_counterexample :
    iterStep hangWorld 0 RunState.init = .ok hangStepState ∧
    (0, ProcEvent.spawn) ∈ hangStepState.events ∧
    (0, ProcEvent.kill) ∈ hangStepState.events ∧
    (0, ProcEvent.reap) ∉ hangStepState.events := by
  refine ⟨rfl, by decide, by decide, by decide⟩

/-- Claim C3: a completed campaign wrote exactly one artifact per failing
iteration, named crashes/timeout_i.bin or crashes/crash_i.bin by failure
kind, whose content is byte-for-byte the payload delivered on that
iteration; artifact names never collide, so no record overwrites
another. -/
theorem claim_C3_artifacts :
    ∀ (W : World) (n : Nat) (r : RunResult), run_fuzz W n = .ok r →
      r.final.writes = expectedWrites W n ∧
      (∀ i k, i < n → failKindAt W i = some k →
        ((artifactName k i, payloadAt W i) ∈ r.final.writes ∧
         ∀ p ∈ r.final.writes, p.1 = artifactName k i →
           p = (artifactName k i, payloadAt W i))) ∧
      (r.final.writes.map Prod.fst).Nodup := by
  intro W n r h
  obtain ⟨_, hnf, hfin, _, _⟩ := run_fuzz_ok_inv W n r h
  have hw := (stAt_char W n hnf).1
  rw [hfin, hw]
  exact ⟨rfl,
    fun i k hi hk => ⟨expectedWrites_mem W hi hk,
      fun p hp hname => expectedWrites_name_unique W hp hname⟩,
    expectedWrites_name_nodup W n⟩

/-- Witness for C3: the crashing demo run contains the crash artifact of
iteration zero, and its artifact names are duplicate-free. -/
theorem claim_C3_witness :
    (artifactName FailKind.crashKind 0, payloadAt demoWorld 0) ∈ demoRes.final.writes ∧
    (demoRes.final.writes.map Prod.fst).Nodup := by
  have h := claim_C3_artifacts demoWorld 1 demoRes rfl
  exact ⟨(h.2.1 0 FailKind.crashKind (by omega) rfl).1, h.2.2⟩

/-- Counterexample to C5 as stated: two campaigns with the same seed for
the random module and identical configuration, differing only in the OS
entropy pool behind os.urandom, deliver different payloads already on
iteration zero — the generator does not consume randomness only from the
seeded source. -/
theorem claim_C5_counterexample :
    demoWorld.seed = demoWorldB.seed ∧
    demoWorld.target = demoWorldB.target ∧
    demoWorld.mkdirFault = demoWorldB.mkdirFault ∧
    demoWorld.writeFault = demoWorldB.writeFault ∧
    payloadAt demoWorld 0 ≠ payloadAt demoWorldB 0 := by
  refine ⟨rfl, rfl, rfl, rfl, ?_⟩
  have hA : payloadAt demoWorld 0 = [0] := by
    show (genPayload seedA entA GenState.init).1 = [0]
    rw [genPayload_raw seedA entA GenState.init (by norm_num [seedA, GenState.init])]
    decide
  have hB : payloadAt demoWorldB 0 = [1] := by
    show (genPayload seedA entB GenState.init).1 = [1]
    rw [genPayload_raw seedA entB GenState.init (by norm_num [seedA, GenState.init])]
    decide
  rw [hA, hB]
  decide

/-- Claim C5 as amended: with the seed fixed and the configuration
identical, two runs make identical strategy selections with identical
length draws, payload lengths agree on every iteration, and payloads agree
on every structured-noise and empty iteration; raw-random payload content
comes from the OS entropy pool, so payload equality on raw iterations
additionally needs an identical entropy pool. -/
theorem claim_C5_amended_determinism :
    ∀ (W1 W2 : World), W1.seed = W2.seed →
      (∀ i, strategyAt W1 i = strategyAt W2 i) ∧
      (∀ i, (payloadAt W1 i).length = (payloadAt W2 i).length) ∧
      (∀ i, (∀ len, strategyAt W1 i ≠ .rawRandom len) → payloadAt W1 i = payloadAt W2 i) ∧
      (W1.ent = W2.ent → ∀ i, payloadAt W1 i = payloadAt W2 i) := by
  intro W1 W2 hs
  have hg := genStateAt_seed_only W1 W2 hs
  have hstrat : ∀ i, strategyAt W1 i = strategyAt W2 i := by
    intro i
    rw [strategyAt, strategyAt, hg i, hs]
  have hpay : ∀ i, payloadAt W1 i = payloadAt W2 i ∨
      (payloadAt W1 i = OsEntropy.urandom W1.ent (genStateAt W2 i).urIdx
          (randint (W2.seed.randints (genStateAt W2 i).riIdx) 1 1024) ∧
       payloadAt W2 i = OsEntropy.urandom W2.ent (genStateAt W2 i).urIdx
          (randint (W2.seed.randints (genStateAt W2 i).riIdx) 1 1024) ∧
       strategyAt W1 i = .rawRandom
          (randint (W2.seed.randints (genStateAt W2 i).riIdx) 1 1024)) := by
    intro i
    have e1 : payloadAt W1 i = (genPayload W2.seed W1.ent (genStateAt W2 i)).1 := by
      show (genPayload W1.seed W1.ent (genStateAt W1 i)).1
          = (genPayload W2.seed W1.ent (genStateAt W2 i)).1
      rw [hs, hg i]
    have e2 : payloadAt W2 i = (genPayload W2.seed W2.ent (genStateAt W2 i)).1 := rfl
    by_cases h1 : W2.seed.randoms (genStateAt W2 i).rIdx < 1/2
    · right
      refine ⟨?_, ?_, ?_⟩
      · rw [e1, genPayload_raw W2.seed W1.ent (genStateAt W2 i) h1]
        rfl
      · rw [e2, genPayload_raw W2.seed W2.ent (genStateAt W2 i) h1]
        rfl
      · rw [strategyAt, hg i, hs, if_pos h1]
    · left
      by_cases h2 : W2.seed.randoms (genStateAt W2 i).rIdx < 9/10
      · rw [e1, e2, genPayload_json W2.seed W1.ent (genStateAt W2 i) h1 h2,
          genPayload_json W2.seed W2.ent (genStateAt W2 i) h1 h2]
      · rw [e1, e2, genPayload_empty W2.seed W1.ent (genStateAt W2 i) h2,
          genPayload_empty W2.seed W2.ent (genStateAt W2 i) h2]
  refine ⟨hstrat, ?_, ?_, ?_⟩
  · intro i
    rcases hpay i with h | ⟨ha, hb, _⟩
    · rw [h]
    · rw [ha, hb, urandom_length, urandom_length]
  · intro i hnr
    rcases hpay i with h | ⟨_, _, hsr⟩
    · exact h
    · exact absurd hsr (hnr _)
  · intro hent i
    show (genPayload W1.seed W1.ent (genStateAt W1 i)).1
        = (genPayload W2.seed W2.ent (genStateAt W2 i)).1
    rw [hs, hg i, hent]

/-- Witness for the amended C5: the two demo environments share the seed;
their strategy selections and payload lengths coincide on iteration
zero. -/
theorem claim_C5_amended_witness :
    strategyAt demoWorld 0 = strategyAt demoWorldB 0 ∧
    (payloadAt demoWorld 0).length = (payloadAt demoWorldB 0).length := by
  have h := claim_C5_amended_determinism demoWorld demoWorldB rfl
  exact ⟨h.1 0, h.2.1 0⟩

/-- Claim C6: each iteration draws one uniform value rand; below one half
the payload is the raw random bytes of a length drawn by randint from
[1, 1024]; otherwise below nine tenths it is structured noise of a length
drawn by randint from [10, 1000] over the fixed JSON-like alphabet;
otherwise it is empty.  The draw is consumed exactly once (the counter
advances by one). -/
theorem claim_C6_strategy_mix :
    ∀ (s : SeedSource) (e : OsEntropy) (g : GenState),
      ((genPayload s e g).2.rIdx = g.rIdx + 1) ∧
      (s.randoms g.rIdx < 1/2 →
        (genPayload s e g).1 =
          OsEntropy.urandom e g.urIdx (randint (s.randints g.riIdx) 1 1024) ∧
        1 ≤ randint (s.randints g.riIdx) 1 1024 ∧
        randint (s.randints g.riIdx) 1 1024 ≤ 1024 ∧
        ((genPayload s e g).1).length = randint (s.randints g.riIdx) 1 1024) ∧
      (¬ s.randoms g.rIdx < 1/2 → s.randoms g.rIdx < 9/10 →
        ((genPayload s e g).1).length = randint (s.randints g.riIdx) 10 1000 ∧
        10 ≤ ((genPayload s e g).1).length ∧ ((genPayload s e g).1).length ≤ 1000 ∧
        ∀ b ∈ (genPayload s e g).1, b ∈ chars) ∧
      (¬ s.randoms g.rIdx < 9/10 → (genPayload s e g).1 = []) := by
  intro s e g
  refine ⟨?_, ?_, ?_, ?_⟩
  · by_cases h1 : s.randoms g.rIdx < 1/2
    · rw [genPayload_raw s e g h1]
    · by_cases h2 : s.randoms g.rIdx < 9/10
      · rw [genPayload_json s e g h1 h2]
      · rw [genPayload_empty s e g h2]
  · intro h1
    have hp : (genPayload s e g).1 =
        OsEntropy.urandom e g.urIdx (randint (s.randints g.riIdx) 1 1024) := by
      rw [genPayload_raw s e g h1]
      rfl
    refine ⟨hp, ?_, ?_, ?_⟩
    · unfold randint
      omega
    · unfold randint
      omega
    · rw [hp]
      exact urandom_length e g.urIdx _
  · intro h1 h2
    have hp : (genPayload s e g).1 = (generate_json_garbage s g.riIdx g.chIdx).2 := by
      rw [genPayload_json s e g h1 h2]
    have hlen : ((generate_json_garbage s g.riIdx g.chIdx).2).length
        = randint (s.randints g.riIdx) 10 1000 := by
      simp [generate_json_garbage]
    refine ⟨by rw [hp, hlen], ?_, ?_, ?_⟩
    · rw [hp, hlen]
      unfold randint
      omega
    · rw [hp, hlen]
      unfold randint
      omega
    · intro b hb
      rw [hp] at hb
      simp only [generate_json_garbage] at hb
      obtain ⟨j, _, hj⟩ := List.mem_map.mp hb
      rw [← hj]
      exact chars_getD_mem _
  · intro h2
    rw [genPayload_empty s e g h2]

/-- Witness for C6: with the all-zero seed the first draw falls in the raw
bucket, the drawn length is one, and the payload is the single urandom
byte. -/
theorem claim_C6_witness :
    (genPayload seedA entA GenState.init).1 =
      OsEntropy.urandom entA 0 (randint (seedA.randints 0) 1 1024) ∧
    randint (seedA.randints 0) 1 1024 = 1 := by
  have h := (claim_C6_strategy_mix seedA entA GenState.init).2.1
    (by norm_num [seedA, GenState.init])
  exact ⟨h.1, by decide⟩

/-- Claim C7: a harness fault — the corpus directory failing to be
created, a spawn failure, or a failing artifact write — aborts the whole
campaign with a distinct error: no verdict is produced, the fault is never
recorded as a crash artifact, never counted, and no later iteration
runs. -/
theorem claim_C7_harness_fault :
    (∀ (W : World) (n : Nat), W.mkdirFault = true →
      run_fuzz W n = .error (.mkdirFault, RunState.init)) ∧
    (∀ (W : World) (n i : Nat), i < n → W.mkdirFault = false →
      (∀ j, j < i → stepFaults W j = false) → stepFaults W i = true →
      run_fuzz W n = .error (faultAt W i, stAt W (i + 1)) ∧
      (∀ r, run_fuzz W n ≠ .ok r) ∧
      (stAt W (i + 1)).writes = expectedWrites W i ∧
      (stAt W (i + 1)).crashes = (expectedWrites W i).length ∧
      (stAt W (i + 1)).spawns ≤ i + 1) := by
  constructor
  · intro W n hm
    rw [run_fuzz, if_pos hm]
  intro W n i hi hmk hpre hf
  have herr := runFrom_fault W n 0 i (Nat.zero_le i) (by omega)
    (fun j _ hj => hpre j hj) hf
  have h0 : runFrom W 0 n RunState.init = .error (faultAt W i, stAt W (i + 1)) := herr
  have hrun : run_fuzz W n = .error (faultAt W i, stAt W (i + 1)) := by
    rw [run_fuzz, if_neg (by simp [hmk]), h0]
  have hchar := stAt_char W i hpre
  obtain ⟨hfw, hfc, hfs⟩ := stAt_succ_fault W i hf
  refine ⟨hrun, ?_, ?_, ?_, ?_⟩
  · intro r hr
    rw [hrun] at hr
    exact Except.noConfusion hr
  · rw [hfw, hchar.1]
  · rw [hfc, hchar.2.1]
  · rw [hchar.2.2.1] at hfs
    exact hfs

/-- Witness for C7: the campaign against the unspawnable target aborts on
iteration zero with nothing recorded and nothing counted. -/
theorem claim_C7_witness :
    run_fuzz mkdirWorld 1 = .error (Fault.mkdirFault, RunState.init) ∧
    run_fuzz faultWorld 1 = .error (faultAt faultWorld 0, stAt faultWorld 1) ∧
    (stAt faultWorld 1).crashes = 0 ∧
    (stAt faultWorld 1).writes = [] ∧
    (stAt faultWorld 1).spawns ≤ 1 := by
  have h := claim_C7_harness_fault.2 faultWorld 1 0 (by omega) rfl
    (fun j hj => absurd hj (by omega)) rfl
  have hm := claim_C7_harness_fault.1 mkdirWorld 1 rfl
  refine ⟨hm, h.1, ?_, ?_, h.2.2.2.2⟩
  · rw [h.2.2.2.1]
    rfl
  · rw [h.2.2.1]
    rfl

/-- Claim C9: a campaign with budget n, no external interruption and no
harness fault performs exactly n supervised executions — the spawn counter
is n and the spawn events are exactly one per iteration, in order, with no
retries. -/
theorem claim_C9_execution_count :
    ∀ (W : World) (n : Nat), W.mkdirFault = false →
      (∀ j, j < n → stepFaults W j = false) →
      ∃ r, run_fuzz W n = .ok r ∧ r.final.spawns = n ∧
        r.final.events.filter (fun p => p.2 == ProcEvent.spawn) =
          (List.range n).map (fun i => (i, ProcEvent.spawn)) := by
  intro W n hmk hnf
  refine ⟨_, run_fuzz_no_fault W n hmk hnf, ?_, ?_⟩
  · exact (stAt_char W n hnf).2.2.1
  · show (stAt W n).events.filter (fun p => p.2 == ProcEvent.spawn) =
      (List.range n).map (fun i => (i, ProcEvent.spawn))
    rw [(stAt_char W n hnf).2.2.2]
    exact flatten_filter_spawn W n (fun j hj => behavior_ne_spawnFault W (hnf j hj))

/-- Witness for C9: the one-iteration demo campaign spawned exactly one
process, on iteration zero. -/
theorem claim_C9_witness :
    demoRes.final.spawns = 1 ∧
    demoRes.final.events.filter (fun p => p.2 == ProcEvent.spawn) =
      [(0, ProcEvent.spawn)] := by
  obtain ⟨r, hr, hs, hev⟩ := claim_C9_execution_count demoWorld 1 rfl (fun _ _ => rfl)
  have hdr : demoRes = r := by
    unfold demoRes
    rw [hr]
  rw [hdr]
  refine ⟨hs, ?_⟩
  rw [hev]
  rfl

/-- Claim C10: at every point of the loop the crashes counter equals the
number of artifact writes completed so far, each increment paired with
exactly one completed write; with collision-free names the final counter is
the number of artifact files of the run. -/
theorem claim_C10_counter_artifacts :
    ∀ (W : World) (n : Nat) (r : RunResult), run_fuzz W n = .ok r →
      (∀ i, i ≤ n → (stAt W i).crashes = (stAt W i).writes.length) ∧
      r.final.crashes = r.final.writes.length ∧
      (r.final.writes.map Prod.fst).Nodup := by
  intro W n r h
  obtain ⟨_, hnf, hfin, _, _⟩ := run_fuzz_ok_inv W n r h
  have hi : ∀ i, i ≤ n → (stAt W i).crashes = (stAt W i).writes.length := by
    intro i hin
    have hch := stAt_char W i (fun j hj => hnf j (lt_of_lt_of_le hj hin))
    rw [hch.2.1, hch.1]
  refine ⟨hi, ?_, ?_⟩
  · rw [hfin]
    exact hi n le_rfl
  · rw [hfin, (stAt_char W n hnf).1]
    exact expectedWrites_name_nodup W n

/-- Witness for C10: in the demo run the final counter equals the number of
artifacts and the artifact names are duplicate-free. -/
theorem claim_C10_witness :
    demoRes.final.crashes = demoRes.final.writes.length ∧
    (demoRes.final.writes.map Prod.fst).Nodup :=
  ⟨(claim_C10_counter_artifacts demoWorld 1 demoRes rfl).2.1,
   (claim_C10_counter_artifacts demoWorld 1 demoRes rfl).2.2⟩

end FuzzRunner
